import Mathlib

/-!
# Verification of the E2E trace debug tool (`lambda trace`)

Shallow embedding of the trace ingestion and diagnostic engine
(`src/commands/trace/index.ts` with the types of
`src/commands/trace/trace-types.ts`) and proofs of the specified
properties of its context builder, diagnostic engine and report
projections.

Timestamps are modelled as `Int` (JavaScript numbers; all properties at
stake are order/arithmetic properties, not float-precision properties).
File-system access is modelled by passing the parsed file contents (the
event lists of `test.trace` and of the concatenated `<n>-trace.trace`
shards) as explicit arguments.
-/

namespace TraceTool

/-! ## JavaScript primitives

Helpers modelling the JavaScript idioms the source relies on:
truthiness-based defaulting (`x || d`, where `0`, `""` and `undefined`
are falsy) and `String.prototype.includes`. -/

/-- JavaScript `x || d` on an optional number: `undefined` and `0` are falsy. -/
def jsOrI (v : Option Int) (d : Int) : Int :=
  match v with
  | none => d
  | some x => if x = 0 then d else x

/-- JavaScript `x || d` on an optional string: `undefined` and `""` are falsy. -/
def jsOrStr (v : Option String) (d : String) : String :=
  match v with
  | none => d
  | some s => if s = "" then d else s

/-- JavaScript `x || y` where both sides are optional strings
(`errorContext?.errorMessage || ctx.errorMessage`). -/
def jsOrOptStr (v : Option String) (d : Option String) : Option String :=
  match v with
  | none => d
  | some s => if s = "" then d else some s

/-- Does the second character list start with the first (the pattern)? -/
def startsWithChars : List Char → List Char → Bool
  | [], _ => true
  | _ :: _, [] => false
  | a :: as, b :: bs => a == b && startsWithChars as bs

/-- Does the second character list contain the first as a contiguous run? -/
def includesChars (pat : List Char) : List Char → Bool
  | [] => startsWithChars pat []
  | c :: rest => startsWithChars pat (c :: rest) || includesChars pat rest

/-- JavaScript `s.includes(pat)`: substring test. -/
def strIncludes (s pat : String) : Bool :=
  includesChars pat.toList s.toList

/-! ## Trace event data model (`trace-types.ts`)

One structure per event variant of the `TraceEvent` union, carrying the
fields the embedded code reads; fields the tool never touches (`pageId`,
`class`, stacks, snapshots, params bags, ...) are omitted. -/

/-- `ContextOptionsEvent` (`type: "context-options"`). -/
structure ContextOptionsEvent where
  monotonicTime : Int
  title : Option String
  deriving DecidableEq, Repr

/-- `BeforeEvent` (`type: "before"`): an action starting. -/
structure BeforeEvent where
  callId : String
  startTime : Int
  apiName : String
  deriving DecidableEq, Repr

/-- `AfterEvent` (`type: "after"`): an action completed.
`errorMessage` models `error?.message`. -/
structure AfterEvent where
  callId : String
  endTime : Int
  errorMessage : Option String
  deriving DecidableEq, Repr

/-- `ScreencastFrameEvent` (`type: "screencast-frame"`): a screenshot. -/
structure ScreencastFrameEvent where
  sha1 : String
  width : Int
  height : Int
  timestamp : Int
  deriving DecidableEq, Repr

/-- `ConsoleEvent` (`type: "console"`). -/
structure ConsoleEvent where
  messageType : String
  text : String
  time : Int
  deriving DecidableEq, Repr

/-- `LogEvent` (`type: "log"`). -/
structure LogEvent where
  time : Int
  message : String
  deriving DecidableEq, Repr

/-- `BrowserEvent` (`type: "event"`, includes page errors).
`errorMessage` models `params.error?.error.message`. -/
structure BrowserEvent where
  method : String
  time : Int
  errorMessage : Option String
  deriving DecidableEq, Repr

/-- `StdoutEvent` / `StderrEvent`: runner output lines in `test.trace`. -/
structure StdIOEvent where
  timestamp : Int
  text : String
  deriving DecidableEq, Repr

/-- The `TraceEvent` discriminated union. `input` and `frameSnapshot`
carry no fields read by the tool. -/
inductive TraceEvent where
  | contextOptions (e : ContextOptionsEvent)
  | before (e : BeforeEvent)
  | after (e : AfterEvent)
  | screencastFrame (e : ScreencastFrameEvent)
  | console (e : ConsoleEvent)
  | log (e : LogEvent)
  | event (e : BrowserEvent)
  | input
  | frameSnapshot
  | stdout (e : StdIOEvent)
  | stderr (e : StdIOEvent)
  | testError (message : String)
  deriving DecidableEq, Repr

/-- `TraceContext.status`: `"passed" | "failed" | "unknown"`. -/
inductive TraceStatus where
  | passed
  | failed
  | unknown
  deriving DecidableEq, Repr

/-- A merged action: `BeforeEvent & { endTime?: number; error?: string }`. -/
structure TraceAction where
  callId : String
  startTime : Int
  apiName : String
  endTime : Option Int
  error : Option String
  deriving DecidableEq, Repr

/-- `TraceContext`: the central aggregate built by `parseTrace`. -/
structure TraceContext where
  tracePath : String
  testName : String
  duration : Int
  status : TraceStatus
  errorTime : Option Int
  errorMessage : Option String
  screenshots : List ScreencastFrameEvent
  consoleMessages : List ConsoleEvent
  errors : List BrowserEvent
  actions : List TraceAction
  logs : List LogEvent
  deriving DecidableEq, Repr

/-- JavaScript `content.split("\n")` at the character level
(structural recursion, so concrete instances evaluate by kernel
reduction; `String.splitOn` itself is well-founded-recursive and does
not). -/
def splitLinesChars : List Char → List (List Char)
  | [] => [[]]
  | c :: rest =>
    if c = '\n' then [] :: splitLinesChars rest
    else
      match splitLinesChars rest with
      | [] => [[c]]
      | h :: t => (c :: h) :: t

/-- JavaScript `content.split("\n")`. -/
def splitLines (content : String) : List String :=
  (splitLinesChars content.toList).map fun cs => { data := cs }

/-- The characters with leading and trailing whitespace removed. -/
def trimChars (cs : List Char) : List Char :=
  ((cs.dropWhile Char.isWhitespace).reverse.dropWhile Char.isWhitespace).reverse

/-- JavaScript `s.trim()` (structural, see `splitLines`). -/
def jsTrim (s : String) : String :=
  { data := trimChars s.toList }

/-- JavaScript `s.slice(0, n)` (structural, see `splitLines`). -/
def jsSlice (s : String) (n : Nat) : String :=
  { data := s.toList.take n }

/-! ## Event parser (`parseJsonlFile`)

`JSON.parse` on a single line is abstracted as a caller-supplied
fallible decoder `decode : String → Option α` (a line that throws
decodes to `none`); the line splitting, blank-line filtering, per-line
recovery and warning emission follow the source. -/

/-- Result of parsing one JSONL file: the decoded events plus the
number of `Failed to parse line` warnings printed to stderr. -/
structure JsonlResult (α : Type) where
  events : List α
  warnings : Nat
  deriving DecidableEq, Repr

/-- `parseJsonlFile`: split on `"\n"`, drop blank lines, decode each
line independently; a line that fails to decode becomes a warning and
is skipped. Parsing is total: it never aborts on a bad line. -/
def parseJsonlFile {α : Type} (decode : String → Option α) (content : String) :
    JsonlResult α :=
  let lines := (splitLines content).filter (fun line => jsTrim line != "")
  let parsed := lines.map decode
  { events := parsed.filterMap id
    warnings := (parsed.filter (fun r => r.isNone)).length }

/-! ## Trace context builder (`parseTrace`)

`parseTrace` reads `test.trace` and the `<n>-trace.trace` shard files
(concatenated in ascending filename order). Here the two resulting
event lists are passed directly: `testTrace` and `browserTrace`. -/

/-- `browserTrace.find(e => e.type === "context-options")`. -/
def firstContextOptions (browserTrace : List TraceEvent) : Option ContextOptionsEvent :=
  (browserTrace.filterMap fun e =>
    match e with
    | .contextOptions c => some c
    | _ => none).head?

/-- `browserTrace.filter(e => e.type === "screencast-frame")`. -/
def screenshotsOf (browserTrace : List TraceEvent) : List ScreencastFrameEvent :=
  browserTrace.filterMap fun e =>
    match e with
    | .screencastFrame f => some f
    | _ => none

/-- `browserTrace.filter(e => e.type === "console")`. -/
def consoleMessagesOf (browserTrace : List TraceEvent) : List ConsoleEvent :=
  browserTrace.filterMap fun e =>
    match e with
    | .console c => some c
    | _ => none

/-- `browserTrace.filter(e => e.type === "event" && e.method === "pageError")`. -/
def pageErrorsOf (browserTrace : List TraceEvent) : List BrowserEvent :=
  browserTrace.filterMap fun e =>
    match e with
    | .event b => if b.method = "pageError" then some b else none
    | _ => none

/-- `browserTrace.filter(e => e.type === "before")`. -/
def beforeEventsOf (browserTrace : List TraceEvent) : List BeforeEvent :=
  browserTrace.filterMap fun e =>
    match e with
    | .before b => some b
    | _ => none

/-- `browserTrace.filter(e => e.type === "after")`. -/
def afterEventsOf (browserTrace : List TraceEvent) : List AfterEvent :=
  browserTrace.filterMap fun e =>
    match e with
    | .after a => some a
    | _ => none

/-- `browserTrace.filter(e => e.type === "log")`. -/
def logsOf (browserTrace : List TraceEvent) : List LogEvent :=
  browserTrace.filterMap fun e =>
    match e with
    | .log l => some l
    | _ => none

/-- `isKeyAction`: is the API name one of the key actions? The source
tests with `apiName.includes(action)`, a substring check. -/
def isKeyAction (apiName : String) : Bool :=
  let keyActions := [
    "page.goto",
    "page.click",
    "locator.click",
    "locator.fill",
    "locator.type",
    "locator.press",
    "page.fill",
    "page.type",
    "expect.toHaveValue",
    "expect.toBeVisible",
    "expect.toHaveText",
    "expect.toHaveURL",
    "expect.toHaveTitle",
    "expect.not.toBeVisible"]
  keyActions.any fun action => strIncludes apiName action

/-- `afterMap.get(callId)` where `afterMap = new Map(afterEvents.map(e
=> [e.callId, e]))`: a later entry with the same key overwrites an
earlier one, so lookup returns the last after-event with that callId. -/
def afterLookup (afterEvents : List AfterEvent) (callId : String) : Option AfterEvent :=
  afterEvents.reverse.find? fun a => a.callId == callId

/-- The actions extraction of `parseTrace`: key-action before-events,
each spliced with its matching after-event's end time and error. -/
def actionsOf (browserTrace : List TraceEvent) : List TraceAction :=
  ((beforeEventsOf browserTrace).filter fun b => isKeyAction b.apiName).map fun b =>
    let after := afterLookup (afterEventsOf browserTrace) b.callId
    { callId := b.callId
      startTime := b.startTime
      apiName := b.apiName
      endTime := after.map (fun a => a.endTime)
      error := after.bind (fun a => a.errorMessage) }

/-- The predicate of the `testTrace.find` locating the first assertion
error: a stdout/stderr event whose text contains `"Error:"` or
`"Expected"`. -/
def isAssertionOutput (e : TraceEvent) : Bool :=
  match e with
  | .stdout s => strIncludes s.text "Error:" || strIncludes s.text "Expected"
  | .stderr s => strIncludes s.text "Error:" || strIncludes s.text "Expected"
  | _ => false

/-- The `{ text, timestamp }` fields read off the found assertion event. -/
def stdioFieldsOf (e : TraceEvent) : Option StdIOEvent :=
  match e with
  | .stdout s => some s
  | .stderr s => some s
  | _ => none

/-- `statusInfo`: the verdict IIFE of `parseTrace`. Priority: first
assertion marker in runner output, else first page error, else passed. -/
def statusInfoOf (testTrace browserTrace : List TraceEvent) :
    TraceStatus × Option String × Option Int :=
  match testTrace.find? isAssertionOutput with
  | some assertionError =>
    match stdioFieldsOf assertionError with
    | some s => (.failed, some s.text, some s.timestamp)
    | none => (.failed, none, none)
  | none =>
    match pageErrorsOf browserTrace with
    | firstError :: _ => (.failed, firstError.errorMessage, some firstError.time)
    | [] => (.passed, none, none)

/-- `(lastEvent as BeforeEvent)?.startTime`: only before-events carry a
`startTime` field. -/
def eventStartTimeField (e : TraceEvent) : Option Int :=
  match e with
  | .before b => some b.startTime
  | _ => none

/-- `(lastEvent as AfterEvent)?.endTime`: only after-events carry an
`endTime` field. -/
def eventEndTimeField (e : TraceEvent) : Option Int :=
  match e with
  | .after a => some a.endTime
  | _ => none

/-- `(lastEvent as ScreencastFrameEvent)?.timestamp`: screencast frames
and the runner stdout/stderr events carry a `timestamp` field (property
access in JavaScript is structural, so the cast picks either up). -/
def eventTimestampField (e : TraceEvent) : Option Int :=
  match e with
  | .screencastFrame f => some f.timestamp
  | .stdout s => some s.timestamp
  | .stderr s => some s.timestamp
  | _ => none

/-- The `endTime` chain of `parseTrace`:
`lastEvent?.startTime || lastEvent?.endTime || lastEvent?.timestamp || startTime`. -/
def endTimeOf (browserTrace : List TraceEvent) (startTime : Int) : Int :=
  match browserTrace.getLast? with
  | none => startTime
  | some lastEvent =>
    jsOrI (eventStartTimeField lastEvent)
      (jsOrI (eventEndTimeField lastEvent)
        (jsOrI (eventTimestampField lastEvent) startTime))

/-- `contextOptions?.monotonicTime || 0`. -/
def startTimeOf (browserTrace : List TraceEvent) : Int :=
  jsOrI ((firstContextOptions browserTrace).map fun c => c.monotonicTime) 0

/-- `parseTrace`: build the `TraceContext` from the parsed `test.trace`
events and the concatenated browser-shard events. `path.basename
(traceDir)` is abstracted to the `traceDir` string itself (the claims
never inspect the test name). -/
def parseTrace (traceDir : String) (testTrace browserTrace : List TraceEvent) :
    TraceContext :=
  let contextOptions := firstContextOptions browserTrace
  let statusInfo := statusInfoOf testTrace browserTrace
  let startTime := startTimeOf browserTrace
  let duration := endTimeOf browserTrace startTime - startTime
  { tracePath := traceDir
    testName := jsOrStr (contextOptions.bind fun c => c.title) traceDir
    duration := duration
    status := statusInfo.1
    errorTime := statusInfo.2.2
    errorMessage := statusInfo.2.1
    screenshots := screenshotsOf browserTrace
    consoleMessages := consoleMessagesOf browserTrace
    errors := pageErrorsOf browserTrace
    actions := actionsOf browserTrace
    logs := logsOf browserTrace }

/-! ## Nearest-screenshot search (`getScreenshotsAround`) -/

/-- One entry of the `before`/`after` context lists. -/
structure ShotRef where
  index : Nat
  path : String
  timestamp : Int
  deriving DecidableEq, Repr

/-- `ScreenshotResult`. `targetIndex` is `-1` for the empty sentinel. -/
structure ScreenshotResult where
  target : String
  targetIndex : Int
  timestamp : Int
  before : List ShotRef
  after : List ShotRef
  deriving DecidableEq, Repr

/-- `getScreenshotPath`: `path.join(traceDir, "resources", sha1)`. -/
def getScreenshotPath (traceDir sha1 : String) : String :=
  traceDir ++ "/resources/" ++ sha1

/-- `[...screenshots].sort((a, b) => a.timestamp - b.timestamp)`:
stable ascending sort by timestamp. -/
def sortShots (screenshots : List ScreencastFrameEvent) : List ScreencastFrameEvent :=
  screenshots.mergeSort fun a b => a.timestamp ≤ b.timestamp

/-- One step of the `reduce` locating the screenshot with minimal
absolute time difference (strict comparison: the earliest index wins a
tie; a dangling best index counts as distance infinity). -/
def closestStep (sorted : List ScreencastFrameEvent) (timestamp : Int)
    (bestIndex : Nat) (p : Nat × ScreencastFrameEvent) : Nat :=
  let currentDiff := |p.2.timestamp - timestamp|
  match sorted[bestIndex]? with
  | some bestScreenshot =>
    if currentDiff < |bestScreenshot.timestamp - timestamp| then p.1 else bestIndex
  | none => p.1

/-- The `reduce` over the indexed sorted screenshots. -/
def closestShotIndex (sorted : List ScreencastFrameEvent) (timestamp : Int) : Nat :=
  sorted.enum.foldl (closestStep sorted timestamp) 0

/-- The all-empty sentinel returned when there are no screenshots. -/
def emptyScreenshotResult : ScreenshotResult :=
  { target := "", targetIndex := -1, timestamp := 0, before := [], after := [] }

/-- `getScreenshotsAround`: sort, find the closest frame, and slice up
to `contextCount` frames on each side, clipped at the list bounds.
`sorted.slice(max(0, i - c), i)` is modelled with `drop`/`take` (natural
subtraction is exactly `Math.max(0, i - c)`). -/
def getScreenshotsAround (screenshots : List ScreencastFrameEvent) (timestamp : Int)
    (contextCount : Nat) (traceDir : String) : ScreenshotResult :=
  let sorted := sortShots screenshots
  if sorted.isEmpty then emptyScreenshotResult
  else
    let closestIndex := closestShotIndex sorted timestamp
    match sorted[closestIndex]? with
    | none => emptyScreenshotResult
    | some target =>
      let lo := closestIndex - contextCount
      let before := ((sorted.drop lo).take (closestIndex - lo)).enum.map fun p =>
        { index := lo + p.1
          path := getScreenshotPath traceDir p.2.sha1
          timestamp := p.2.timestamp : ShotRef }
      let after := ((sorted.drop (closestIndex + 1)).take contextCount).enum.map fun p =>
        { index := closestIndex + 1 + p.1
          path := getScreenshotPath traceDir p.2.sha1
          timestamp := p.2.timestamp : ShotRef }
      { target := getScreenshotPath traceDir target.sha1
        targetIndex := (closestIndex : Int)
        timestamp := target.timestamp
        before := before
        after := after }

/-! ## Error-context document and summary projection
(`loadErrorContext`, `commandSummary`)

The regex extraction over the markdown text is abstracted to its three
captured groups: `nameMatch`, `locationMatch` and `errorMatch` hold
capture group 1 of the name-line, location-line and fenced
error-details-block regexes respectively (`none` when the regex does
not match). A `doc` of `none` models a missing `error-context.md`
file. -/

/-- The captures pulled out of an existing `error-context.md`. -/
structure ErrorContextDoc where
  nameMatch : Option String
  locationMatch : Option String
  errorMatch : Option String
  deriving DecidableEq, Repr

/-- The record `loadErrorContext` returns for a parseable document. -/
structure ErrorContextInfo where
  testName : String
  errorMessage : String
  errorLocation : String
  deriving DecidableEq, Repr

/-- `loadErrorContext`: `null` when the file is missing or the fenced
error block does not parse; otherwise the three trimmed fields with
their fallback strings. -/
def loadErrorContext (doc : Option ErrorContextDoc) : Option ErrorContextInfo :=
  match doc with
  | none => none
  | some d =>
    match d.errorMatch with
    | none => none
    | some err =>
      some
        { testName := jsOrStr (d.nameMatch.map jsTrim) "Unknown test"
          errorMessage := jsOrStr (some (jsTrim err)) "Unknown error"
          errorLocation := jsOrStr (d.locationMatch.map jsTrim) "Unknown location" }

/-- The result record of the `summary` command. -/
structure SummaryResult where
  testName : String
  status : TraceStatus
  errorTime : Option Int
  errorMessage : Option String
  errorLocation : Option String
  countScreenshots : Nat
  countConsoleMessages : Nat
  countErrors : Nat
  countActions : Nat
  deriving DecidableEq, Repr

/-- `commandSummary`: if `error-context.md` exists the test failed
(even if the trace says passed) and its message wins; the reported
message is truncated to 500 characters (`slice(0, 500)`). The
human-formatted `duration` string field is omitted. -/
def commandSummary (ctx : TraceContext) (doc : Option ErrorContextDoc) : SummaryResult :=
  let errorContext := loadErrorContext doc
  let actualStatus := match errorContext with
    | some _ => TraceStatus.failed
    | none => ctx.status
  let actualErrorMessage :=
    jsOrOptStr (errorContext.map fun ec => ec.errorMessage) ctx.errorMessage
  { testName := ctx.testName
    status := actualStatus
    errorTime := ctx.errorTime
    errorMessage := actualErrorMessage.map fun s => jsSlice s 500
    errorLocation := errorContext.map fun ec => ec.errorLocation
    countScreenshots := ctx.screenshots.length
    countConsoleMessages := ctx.consoleMessages.length
    countErrors := ctx.errors.length
    countActions := ctx.actions.length }

/-! ## Diagnostic engine (`getDiagnoseResults`)

The collection phase scans every textual signal (console messages, page
errors, runner stdout/stderr/error events, the error-context document)
against the regex signature table, pushing one `DiagnosticIssue` per
first-matching signal in source order. Regex matching is not
shallow-embeddable, so the collected issue list is the input here; the
report construction that follows the collection (the timestamp sort,
the 1000 ms per-category deduplication, the recovered/non-recovered
split, the by-category counts, the severity and summary strings, and
the top-10 cap) is embedded exactly. -/

/-- `DiagnosticIssue`: one diagnostic finding. `source` is one of
`"console"`, `"pageError"`, `"testOutput"`. A missing `recovered` flag
is the falsy `false`. -/
structure DiagnosticIssue where
  category : String
  timestamp : Int
  source : String
  text : String
  explanation : String
  solution : String
  recovered : Bool
  deriving DecidableEq, Repr

/-- One entry of the emitted `issues` list. -/
structure IssueOut where
  category : String
  timestamp : Int
  source : String
  explanation : String
  solution : String
  snippet : String
  recovered : Bool
  deriving DecidableEq, Repr

/-- `DiagnoseResults`. `byCategory` models the `Record<string, number>`
as its lookup function (a missing key counts 0, matching the
`byCategory[c] || 0` read). -/
structure DiagnoseResults where
  summary : String
  issueCount : Nat
  recoveredCount : Option Nat
  byCategory : String → Nat
  primaryExplanation : String
  primaryRecommendation : String
  issues : List IssueOut

/-- `issues.sort((a, b) => a.timestamp - b.timestamp)`: stable
ascending sort by timestamp. -/
def sortIssues (issues : List DiagnosticIssue) : List DiagnosticIssue :=
  issues.mergeSort fun a b => a.timestamp ≤ b.timestamp

/-- One step of the deduplicating `reduce`: drop the issue if some
already-kept issue shares its category within 1000 ms. -/
def dedupStep (acc : List DiagnosticIssue) (issue : DiagnosticIssue) :
    List DiagnosticIssue :=
  if acc.any fun existing =>
      existing.category == issue.category &&
        |existing.timestamp - issue.timestamp| < 1000
  then acc
  else acc ++ [issue]

/-- The deduplication `reduce` over the sorted issues. -/
def dedupIssues (issues : List DiagnosticIssue) : List DiagnosticIssue :=
  issues.foldl dedupStep []

/-- The issue list shown in the report before the cap: all deduplicated
issues when verbose, only the non-recovered ones otherwise. -/
def activeIssuesOf (issues : List DiagnosticIssue) (verbose : Bool) :
    List DiagnosticIssue :=
  let uniqueIssues := dedupIssues (sortIssues issues)
  if verbose then uniqueIssues else uniqueIssues.filter fun i => !i.recovered

/-- The per-issue projection of the final `issues` list (the snippet is
the 200-character prefix with an ellipsis when truncated). -/
def projectIssue (issue : DiagnosticIssue) : IssueOut :=
  { category := issue.category
    timestamp := issue.timestamp
    source := issue.source
    explanation := issue.explanation
    solution := issue.solution
    snippet := jsSlice issue.text 200 ++ (if issue.text.length > 200 then "..." else "")
    recovered := issue.recovered }

/-- The `byCategory` accumulation:
`byCategory[issue.category] = (byCategory[issue.category] || 0) + 1`
over the non-recovered issues. -/
def byCategoryOf (nonRecoveredIssues : List DiagnosticIssue) : String → Nat :=
  nonRecoveredIssues.foldl
    (fun m issue => fun c => if c = issue.category then m c + 1 else m c)
    (fun _ => 0)

/-- `getDiagnoseResults`, from the sort at the top of the report
construction onward (see the section comment for the abstraction
boundary of the collection phase). -/
def getDiagnoseResults (issues : List DiagnosticIssue) (verbose : Bool) :
    DiagnoseResults :=
  let uniqueIssues := dedupIssues (sortIssues issues)
  let recoveredIssues := uniqueIssues.filter fun i => i.recovered
  let nonRecoveredIssues := uniqueIssues.filter fun i => !i.recovered
  let activeIssues := activeIssuesOf issues verbose
  let byCategory := byCategoryOf nonRecoveredIssues
  let hasCritical :=
    byCategory "Test Assertion Failed" != 0 || byCategory "HTTP 5xx Error" != 0
  let recoveredLen := recoveredIssues.length
  let primary :=
    if activeIssues.isEmpty then
      let recoveryNote :=
        if recoveredLen > 0 then
          s!" ({recoveredLen} recovered issue(s) hidden, use --verbose to see)"
        else ""
      (s!"No known error patterns were detected in the trace.",
       s!"Trace looks clean.{recoveryNote} If test still fails, check server logs.")
    else
      let criticalIssue := activeIssues.find? fun i =>
        !i.recovered &&
          (i.category == "Test Assertion Failed" || i.category == "HTTP 5xx Error")
      let primaryIssue := criticalIssue <|> activeIssues.head?
      (jsOrStr (primaryIssue.map fun i => i.explanation) "",
       jsOrStr (primaryIssue.map fun i => i.solution) "")
  let recoveryNote :=
    if recoveredLen > 0 then
      if verbose then s!" (+{recoveredLen} recovered)"
      else s!" ({recoveredLen} recovered issue(s) hidden)"
    else ""
  let nonRecoveredLen := nonRecoveredIssues.length
  let summary :=
    if nonRecoveredLen = 0 then
      s!"✅ No known error patterns detected{recoveryNote}"
    else if hasCritical then
      s!"🚨 CRITICAL ISSUES FOUND - {nonRecoveredLen} unique error(s) detected{recoveryNote}"
    else
      s!"⚠️  {nonRecoveredLen} potential issue(s) detected{recoveryNote}"
  { summary := summary
    issueCount := nonRecoveredLen
    recoveredCount := if recoveredLen > 0 then some recoveredLen else none
    byCategory := byCategory
    primaryExplanation := primary.1
    primaryRecommendation := primary.2
    issues := (activeIssues.take 10).map projectIssue }

/-! ## Auxiliary notions used by the statements -/

/-- The timestamp field that orders an event in its own collection:
`timestamp` for screencast frames, `time` for console messages and
browser events, `startTime` for action starts. Used to state when the
concatenated shard stream is chronologically ordered. -/
def eventTime (e : TraceEvent) : Option Int :=
  match e with
  | .screencastFrame f => some f.timestamp
  | .console c => some c.time
  | .event b => some b.time
  | .before b => some b.startTime
  | _ => none

/-- Concrete trace inputs used by the counterexamples and witnesses. -/
def cexContextOptions : TraceEvent :=
  .contextOptions { monotonicTime := 100, title := none }

/-- A screencast frame at timestamp 50 (recorded before the
context-options monotonic time 100). -/
def cexFrame50 : TraceEvent :=
  .screencastFrame { sha1 := "aa", width := 800, height := 600, timestamp := 50 }

/-- A screencast frame at timestamp 100, as the single event of a first
shard file. -/
def cexFrame100 : TraceEvent :=
  .screencastFrame { sha1 := "bb", width := 800, height := 600, timestamp := 100 }

/-- An action-start for `page.evaluate` (not a key action) with no
matching action-end. -/
def cexBeforeEvaluate : TraceEvent :=
  .before { callId := "call@1", startTime := 5, apiName := "page.evaluate" }

/-- An action-start for `locator.click` (a key action) with no matching
action-end. -/
def cexBeforeClick : TraceEvent :=
  .before { callId := "call@2", startTime := 7, apiName := "locator.click" }

/-- A runner stderr line carrying an assertion-failure marker. -/
def cexStderrAssertion : TraceEvent :=
  .stderr { timestamp := 42, text := "Error: expect(locator).toBeVisible() failed" }

/-- A page error browser event. -/
def cexPageError : TraceEvent :=
  .event { method := "pageError", time := 77, errorMessage := some "ReferenceError: x" }

/-- Five sorted screenshots, the trace of scenario E. -/
def cexShots : List ScreencastFrameEvent :=
  [{ sha1 := "s0", width := 1, height := 1, timestamp := 10 },
   { sha1 := "s1", width := 1, height := 1, timestamp := 20 },
   { sha1 := "s2", width := 1, height := 1, timestamp := 30 },
   { sha1 := "s3", width := 1, height := 1, timestamp := 40 },
   { sha1 := "s4", width := 1, height := 1, timestamp := 50 }]

/-- Scenario D error-context document. -/
def cexErrorDoc : ErrorContextDoc :=
  { nameMatch := some "my test"
    locationMatch := some "spec.ts:12"
    errorMatch := some "Expected visible, got hidden" }

/-- A diagnostic issue of the given category and timestamp. -/
def mkCexIssue (category : String) (timestamp : Int) : DiagnosticIssue :=
  { category := category
    timestamp := timestamp
    source := "console"
    text := "Timed out 5000ms waiting for element"
    explanation := "explanation"
    solution := "solution"
    recovered := false }

/-- A toy line decoder for the parser witness: accepts lines that start
with a brace. -/
def cexDecode (line : String) : Option String :=
  if startsWithChars "\x7b".toList line.toList then some line else none

/-- A file body of one malformed line followed by two valid lines. -/
def cexJsonlContent : String :=
  "oops not json\n\x7b\"type\":\"stdout\"\x7d\n\x7b\"type\":\"stderr\"\x7d\n"

/-! ## Theorems -/

/-- **C10.** Although the `TraceContext` type declares the verdict as
one of passed, failed or unknown, `parseTrace` never produces
`unknown`: every branch of its status computation yields `passed` or
`failed`. -/
theorem parseTrace_status_never_unknown (traceDir : String)
    (testTrace browserTrace : List TraceEvent) :
    (parseTrace traceDir testTrace browserTrace).status = TraceStatus.passed ∨
    (parseTrace traceDir testTrace browserTrace).status = TraceStatus.failed := by
  have h : (parseTrace traceDir testTrace browserTrace).status
      = (statusInfoOf testTrace browserTrace).1 := rfl
  rw [h]
  unfold statusInfoOf
  cases h1 : testTrace.find? isAssertionOutput with
  | some e => cases h2 : stdioFieldsOf e <;> simp [h2]
  | none => cases h3 : pageErrorsOf browserTrace <;> simp

/-- **C1.** The verdict follows the priority order: if some runner
stdout/stderr event's text contains an assertion-failure marker
(`"Error:"` or `"Expected"`), the verdict is failed with that (first
such) event's text and timestamp; else if any page-level browser error
event exists, the verdict is failed with the first such error's message
and time; else the verdict is passed. (`List.find?` returns the first
event satisfying the marker predicate, and the existence of a marker
event is equivalent to the find succeeding.) -/
theorem parseTrace_verdict_priority (traceDir : String)
    (testTrace browserTrace : List TraceEvent) :
    ((∃ e ∈ testTrace, isAssertionOutput e) ↔
        (testTrace.find? isAssertionOutput).isSome) ∧
    (∀ e s, testTrace.find? isAssertionOutput = some e → stdioFieldsOf e = some s →
      (parseTrace traceDir testTrace browserTrace).status = TraceStatus.failed ∧
      (parseTrace traceDir testTrace browserTrace).errorMessage = some s.text ∧
      (parseTrace traceDir testTrace browserTrace).errorTime = some s.timestamp) ∧
    (testTrace.find? isAssertionOutput = none →
      ∀ firstError rest, pageErrorsOf browserTrace = firstError :: rest →
        (parseTrace traceDir testTrace browserTrace).status = TraceStatus.failed ∧
        (parseTrace traceDir testTrace browserTrace).errorMessage
          = firstError.errorMessage ∧
        (parseTrace traceDir testTrace browserTrace).errorTime
          = some firstError.time) ∧
    (testTrace.find? isAssertionOutput = none → pageErrorsOf browserTrace = [] →
      (parseTrace traceDir testTrace browserTrace).status = TraceStatus.passed ∧
      (parseTrace traceDir testTrace browserTrace).errorMessage = none ∧
      (parseTrace traceDir testTrace browserTrace).errorTime = none) := by
  have hs : (parseTrace traceDir testTrace browserTrace).status
      = (statusInfoOf testTrace browserTrace).1 := rfl
  have hm : (parseTrace traceDir testTrace browserTrace).errorMessage
      = (statusInfoOf testTrace browserTrace).2.1 := rfl
  have ht : (parseTrace traceDir testTrace browserTrace).errorTime
      = (statusInfoOf testTrace browserTrace).2.2 := rfl
  refine ⟨?_, ?_, ?_, ?_⟩
  · constructor
    · rintro ⟨e, he, hp⟩
      exact List.find?_isSome.mpr ⟨e, he, hp⟩
    · intro h
      obtain ⟨e, he, hp⟩ := List.find?_isSome.mp h
      exact ⟨e, he, hp⟩
  · intro e s h1 h2
    rw [hs, hm, ht]
    simp [statusInfoOf, h1, h2]
  · intro h1 firstError rest h2
    rw [hs, hm, ht]
    simp [statusInfoOf, h1, h2]
  · intro h1 h2
    rw [hs, hm, ht]
    simp [statusInfoOf, h1, h2]

/-- Witness for C1 at a concrete trace: a stderr line containing
`"Error:"` makes the verdict failed with that line's text and
timestamp, even though a page error is also present. -/
theorem parseTrace_verdict_priority_witness :
    (parseTrace "trace" [cexStderrAssertion] [cexPageError]).status
      = TraceStatus.failed ∧
    (parseTrace "trace" [cexStderrAssertion] [cexPageError]).errorMessage
      = some "Error: expect(locator).toBeVisible() failed" ∧
    (parseTrace "trace" [cexStderrAssertion] [cexPageError]).errorTime = some 42 :=
  (parseTrace_verdict_priority "trace" [cexStderrAssertion] [cexPageError]).2.1
    cexStderrAssertion
    { timestamp := 42, text := "Error: expect(locator).toBeVisible() failed" }
    (by decide) (by decide)

/-- **C8 counterexample.** The claim says the duration is never
negative, but on a trace whose context-options event records monotonic
time 100 while the last (and only other) event is a screencast frame at
timestamp 50, `parseTrace` computes duration `50 - 100 = -50 < 0`. -/
theorem parseTrace_duration_negative_cex :
    (parseTrace "trace" [] [cexContextOptions, cexFrame50]).duration = -50 ∧
    (parseTrace "trace" [] [cexContextOptions, cexFrame50]).duration < 0 := by
  constructor <;> decide

/-- **C8 (amended).** The duration equals the last browser event's
recorded time (its `startTime` for an action-start, `endTime` for an
action-end, `timestamp` for a screencast frame or runner output line,
nonzero values only, falling back to the start timestamp for other
event kinds) minus the start timestamp recorded in the context-options
event (zero when that event is absent). The duration is nonnegative
whenever that last-event time is at least the start timestamp, but can
be negative otherwise (see the counterexample). -/
theorem parseTrace_duration_formula (traceDir : String)
    (testTrace browserTrace : List TraceEvent) :
    (parseTrace traceDir testTrace browserTrace).duration
      = endTimeOf browserTrace (startTimeOf browserTrace) - startTimeOf browserTrace ∧
    (firstContextOptions browserTrace = none → startTimeOf browserTrace = 0) ∧
    (startTimeOf browserTrace ≤ endTimeOf browserTrace (startTimeOf browserTrace) →
      0 ≤ (parseTrace traceDir testTrace browserTrace).duration) := by
  have hd : (parseTrace traceDir testTrace browserTrace).duration
      = endTimeOf browserTrace (startTimeOf browserTrace) - startTimeOf browserTrace :=
    rfl
  refine ⟨hd, ?_, ?_⟩
  · intro h
    unfold startTimeOf
    rw [h]
    rfl
  · intro h
    rw [hd]
    omega

/-- Witness for C8 at a concrete trace with no context-options event:
the start timestamp defaults to zero and the duration is nonnegative. -/
theorem parseTrace_duration_formula_witness :
    startTimeOf [cexFrame100] = 0 ∧
    0 ≤ (parseTrace "trace" [] [cexFrame100]).duration :=
  ⟨(parseTrace_duration_formula "trace" [] [cexFrame100]).2.1 (by decide),
   (parseTrace_duration_formula "trace" [] [cexFrame100]).2.2 (by decide)⟩

/-- A filterMap refines another filterMap that succeeds (with the same
value) whenever the first does. -/
theorem filterMap_sublist_filterMap {α β : Type} (f g : α → Option β)
    (h : ∀ a b, f a = some b → g a = some b) (l : List α) :
    (l.filterMap f).Sublist (l.filterMap g) := by
  induction l with
  | nil => simp
  | cons a l ih =>
    rw [List.filterMap_cons, List.filterMap_cons]
    cases hf : f a with
    | none =>
      cases hg : g a with
      | none => exact ih
      | some c => exact ih.trans (List.sublist_cons_self c _)
    | some b =>
      rw [h a b hf]
      exact ih.cons₂ b

/-- **C2 counterexample.** The claim says every timestamped collection
of a built `TraceContext` is sorted ascending even across shard files,
but `parseTrace` performs no re-sort: on the concatenation of a first
shard holding a frame at timestamp 100 and a second shard holding a
frame at timestamp 50, the screenshots collection comes out in
concatenation order `[100, 50]`, which is not ascending. -/
theorem parseTrace_screenshots_unsorted_cex :
    ¬ List.Sorted (· ≤ ·)
      (((parseTrace "trace" [] ([cexFrame100] ++ [cexFrame50])).screenshots).map
        fun f => f.timestamp) := by
  intro h
  have : (100 : Int) ≤ 50 := List.rel_of_sorted_cons h 50 (by decide)
  omega

/-- **C2 (amended).** `parseTrace` does not re-sort: each of the four
timestamped collections is an order-preserving selection of the
concatenated shard stream, so each is sorted ascending by its timestamp
field whenever the concatenated stream itself is chronologically
ordered (`eventTime`-wise) — but not otherwise (see the
counterexample); the screenshot consumers sort their own copy
instead. -/
theorem parseTrace_collections_sorted_of_stream_sorted (traceDir : String)
    (testTrace browserTrace : List TraceEvent)
    (h : List.Sorted (· ≤ ·) (browserTrace.filterMap eventTime)) :
    List.Sorted (· ≤ ·)
      (((parseTrace traceDir testTrace browserTrace).screenshots).map
        fun f => f.timestamp) ∧
    List.Sorted (· ≤ ·)
      (((parseTrace traceDir testTrace browserTrace).consoleMessages).map
        fun c => c.time) ∧
    List.Sorted (· ≤ ·)
      (((parseTrace traceDir testTrace browserTrace).errors).map
        fun b => b.time) ∧
    List.Sorted (· ≤ ·)
      (((parseTrace traceDir testTrace browserTrace).actions).map
        fun a => a.startTime) := by
  refine ⟨?_, ?_, ?_, ?_⟩
  · have he : ((parseTrace traceDir testTrace browserTrace).screenshots).map
        (fun f => f.timestamp)
        = browserTrace.filterMap fun e =>
            (match e with
              | .screencastFrame f => some f
              | _ => none).map fun (f : ScreencastFrameEvent) => f.timestamp := by
      have : (parseTrace traceDir testTrace browserTrace).screenshots
          = screenshotsOf browserTrace := rfl
      rw [this, screenshotsOf, List.map_filterMap]
    rw [he]
    refine List.Pairwise.sublist (filterMap_sublist_filterMap _ _ ?_ _) h
    intro a b hab
    cases a <;> simp_all [eventTime]
  · have he : ((parseTrace traceDir testTrace browserTrace).consoleMessages).map
        (fun c => c.time)
        = browserTrace.filterMap fun e =>
            (match e with
              | .console c => some c
              | _ => none).map fun (c : ConsoleEvent) => c.time := by
      have : (parseTrace traceDir testTrace browserTrace).consoleMessages
          = consoleMessagesOf browserTrace := rfl
      rw [this, consoleMessagesOf, List.map_filterMap]
    rw [he]
    refine List.Pairwise.sublist (filterMap_sublist_filterMap _ _ ?_ _) h
    intro a b hab
    cases a <;> simp_all [eventTime]
  · have he : ((parseTrace traceDir testTrace browserTrace).errors).map
        (fun b => b.time)
        = browserTrace.filterMap fun e =>
            (match e with
              | .event b => if b.method = "pageError" then some b else none
              | _ => none).map fun (b : BrowserEvent) => b.time := by
      have : (parseTrace traceDir testTrace browserTrace).errors
          = pageErrorsOf browserTrace := rfl
      rw [this, pageErrorsOf, List.map_filterMap]
    rw [he]
    refine List.Pairwise.sublist (filterMap_sublist_filterMap _ _ ?_ _) h
    intro a b hab
    cases a <;> simp_all [eventTime]
  · have he : ((parseTrace traceDir testTrace browserTrace).actions).map
        (fun a => a.startTime)
        = browserTrace.filterMap fun e =>
            match e with
            | .before b => if isKeyAction b.apiName then some b.startTime else none
            | _ => none := by
      have h0 : ((parseTrace traceDir testTrace browserTrace).actions).map
          (fun a => a.startTime)
          = ((beforeEventsOf browserTrace).filter fun b => isKeyAction b.apiName).map
              fun b => b.startTime := by
        have hx : (parseTrace traceDir testTrace browserTrace).actions
            = actionsOf browserTrace := rfl
        rw [hx, actionsOf, List.map_map]
        rfl
      rw [h0, beforeEventsOf, List.filter_filterMap, List.map_filterMap]
      congr 1
      funext e
      cases e <;> simp [Option.filter]
    rw [he]
    refine List.Pairwise.sublist (filterMap_sublist_filterMap _ _ ?_ _) h
    intro a b hab
    cases a <;> simp_all [eventTime]

/-- Witness for C2 at a concrete chronologically ordered stream. -/
theorem parseTrace_collections_sorted_witness :
    List.Sorted (· ≤ ·)
      (((parseTrace "trace" [] [cexFrame50, cexFrame100]).screenshots).map
        fun f => f.timestamp) :=
  (parseTrace_collections_sorted_of_stream_sorted "trace" [] [cexFrame50, cexFrame100]
    (by decide)).1

/-- **C4 counterexample.** The claim says no action-start is ever
discarded from the actions collection, but an action-start whose
`apiName` is not a key action (here `page.evaluate`, with no matching
action-end) is dropped by the `isKeyAction` filter: the built context's
actions list is empty although the shard stream contains one
action-start. -/
theorem parseTrace_action_start_discarded_cex :
    beforeEventsOf [cexBeforeEvaluate]
      = [{ callId := "call@1", startTime := 5, apiName := "page.evaluate" }] ∧
    afterEventsOf [cexBeforeEvaluate] = [] ∧
    (parseTrace "trace" [] [cexBeforeEvaluate]).actions = [] := by
  refine ⟨by decide, by decide, by decide⟩

/-- **C4 (amended).** Every action-start whose `apiName` matches a key
action is retained in the actions collection even when it has no
matching action-end (same call identifier): it appears as an incomplete
action with end time and error absent. Action-starts of non-key API
calls are excluded from the actions collection (see the
counterexample). -/
theorem parseTrace_key_action_start_retained (traceDir : String)
    (testTrace browserTrace : List TraceEvent) (b : BeforeEvent)
    (hb : b ∈ beforeEventsOf browserTrace)
    (hk : isKeyAction b.apiName = true)
    (hend : ∀ a ∈ afterEventsOf browserTrace, a.callId ≠ b.callId) :
    ({ callId := b.callId, startTime := b.startTime, apiName := b.apiName,
       endTime := none, error := none } : TraceAction)
      ∈ (parseTrace traceDir testTrace browserTrace).actions := by
  have hl : afterLookup (afterEventsOf browserTrace) b.callId = none := by
    unfold afterLookup
    rw [List.find?_eq_none]
    intro a ha
    have hne := hend a (List.mem_reverse.mp ha)
    simp [hne]
  have hx : (parseTrace traceDir testTrace browserTrace).actions
      = actionsOf browserTrace := rfl
  rw [hx, actionsOf]
  refine List.mem_map.mpr ⟨b, List.mem_filter.mpr ⟨hb, hk⟩, ?_⟩
  rw [hl]
  rfl

/-- Witness for C4 at a concrete trace: a `locator.click` action-start
with no action-end is kept as an incomplete action. -/
theorem parseTrace_key_action_start_retained_witness :
    ({ callId := "call@2", startTime := 7, apiName := "locator.click",
       endTime := none, error := none } : TraceAction)
      ∈ (parseTrace "trace" [] [cexBeforeClick]).actions :=
  parseTrace_key_action_start_retained "trace" [] [cexBeforeClick]
    { callId := "call@2", startTime := 7, apiName := "locator.click" }
    (by decide) (by decide) (by decide)

/-- **C5.** The line parser is partial-failure tolerant: on a file
whose non-blank lines contain exactly `k` decodable lines, it returns
exactly `k` events and one warning per failed line (so events plus
warnings account for every non-blank line), and — being a total
function — it never aborts. -/
theorem parseJsonlFile_partial_tolerance {α : Type} (decode : String → Option α)
    (content : String) (k : Nat)
    (h : ((splitLines content).filter fun line => jsTrim line != "").countP
        (fun line => (decode line).isSome) = k) :
    (parseJsonlFile decode content).events.length = k ∧
    (parseJsonlFile decode content).events.length
        + (parseJsonlFile decode content).warnings
      = ((splitLines content).filter fun line => jsTrim line != "").length := by
  have hev : (parseJsonlFile decode content).events.length
      = ((splitLines content).filter fun line => jsTrim line != "").countP
          fun line => (decode line).isSome := by
    unfold parseJsonlFile
    rw [List.length_filterMap_eq_countP, List.countP_map]
    rfl
  have hw : (parseJsonlFile decode content).warnings
      = ((splitLines content).filter fun line => jsTrim line != "").countP
          fun line => (decode line).isNone := by
    have h0 : (parseJsonlFile decode content).warnings
        = ((((splitLines content).filter fun line => jsTrim line != "").map decode).filter
            fun r => r.isNone).length := rfl
    rw [h0, ← List.countP_eq_length_filter, List.countP_map]
    rfl
  constructor
  · rw [hev, h]
  · rw [hev, hw]
    have := List.length_eq_countP_add_countP
      (fun line => (decode line).isSome)
      ((splitLines content).filter fun line => jsTrim line != "")
    rw [this]
    congr 1
    apply List.countP_congr
    intro line _
    cases decode line <;> simp

/-- Witness for C5: scenario C, a file of one malformed line followed
by two valid lines yields exactly 2 events with the third line
accounted for by a warning. -/
theorem parseJsonlFile_partial_tolerance_witness :
    (parseJsonlFile cexDecode cexJsonlContent).events.length = 2 ∧
    (parseJsonlFile cexDecode cexJsonlContent).events.length
        + (parseJsonlFile cexDecode cexJsonlContent).warnings = 3 := by
  have h := parseJsonlFile_partial_tolerance cexDecode cexJsonlContent 2 (by decide)
  exact ⟨h.1, by rw [h.2]; decide⟩

/-- **C6.** When an `error-context.md` document exists and its fenced
error block parses, the summary projection reports status failed and
uses the document's error message (truncated to its 500-character
prefix by the `slice(0, 500)` display cap), even when the verdict
computed from the event streams alone is passed. -/
theorem commandSummary_error_context_overrides (ctx : TraceContext)
    (doc : Option ErrorContextDoc) (d : ErrorContextDoc) (em : String)
    (hdoc : doc = some d) (herr : d.errorMatch = some em)
    (_hpassed : ctx.status = TraceStatus.passed) :
    (commandSummary ctx doc).status = TraceStatus.failed ∧
    (commandSummary ctx doc).errorMessage
      = some (jsSlice (jsOrStr (some (jsTrim em)) "Unknown error") 500) ∧
    loadErrorContext doc
      = some
        { testName := jsOrStr (d.nameMatch.map jsTrim) "Unknown test"
          errorMessage := jsOrStr (some (jsTrim em)) "Unknown error"
          errorLocation :=
            jsOrStr (d.locationMatch.map jsTrim) "Unknown location" } := by
  subst hdoc
  have hinfo : loadErrorContext (some d)
      = some
        { testName := jsOrStr (d.nameMatch.map jsTrim) "Unknown test"
          errorMessage := jsOrStr (some (jsTrim em)) "Unknown error"
          errorLocation :=
            jsOrStr (d.locationMatch.map jsTrim) "Unknown location" } := by
    simp [loadErrorContext, herr]
  have hne : jsOrStr (some (jsTrim em)) "Unknown error" ≠ "" := by
    show (if jsTrim em = "" then "Unknown error" else jsTrim em) ≠ ""
    by_cases hc : jsTrim em = ""
    · simp [hc]
    · simp [hc]
  refine ⟨?_, ?_, hinfo⟩
  · simp [commandSummary, hinfo]
  · simp [commandSummary, hinfo, jsOrOptStr, hne]

/-- Witness for C6: scenario D, an error-context document carrying
`"Expected visible, got hidden"` flips a passed verdict to failed and
reports that message. -/
theorem commandSummary_error_context_overrides_witness :
    (commandSummary (parseTrace "trace" [] []) (some cexErrorDoc)).status
      = TraceStatus.failed ∧
    (commandSummary (parseTrace "trace" [] []) (some cexErrorDoc)).errorMessage
      = some "Expected visible, got hidden" := by
  have h := commandSummary_error_context_overrides (parseTrace "trace" [] [])
    (some cexErrorDoc) cexErrorDoc "Expected visible, got hidden"
    rfl (by decide) (by decide)
  exact ⟨h.1, by rw [h.2.1]; decide⟩


/-- The fold underlying `closestShotIndex` keeps a valid index and
minimises the absolute time difference over the processed pairs. -/
theorem closestStep_fold_spec (sorted : List ScreencastFrameEvent) (t : Int) :
    ∀ (l : List (Nat × ScreencastFrameEvent)) (acc : Nat),
      acc < sorted.length →
      (∀ p ∈ l, sorted[p.1]? = some p.2) →
      l.foldl (closestStep sorted t) acc < sorted.length ∧
      ∀ q b, sorted[(l.foldl (closestStep sorted t) acc)]? = some q →
        sorted[acc]? = some b →
        |q.timestamp - t| ≤ |b.timestamp - t| ∧
        ∀ p ∈ l, |q.timestamp - t| ≤ |p.2.timestamp - t| := by
  intro l
  induction l with
  | nil =>
    intro acc hacc _
    refine ⟨hacc, fun q b hq hb => ?_⟩
    have hqb : q = b := by
      rw [List.foldl_nil] at hq
      rw [hq] at hb
      exact Option.some_injective _ hb
    subst hqb
    exact ⟨le_refl _, fun p hp => absurd hp (List.not_mem_nil p)⟩
  | cons p l ih =>
    intro acc hacc hl
    have hp : sorted[p.1]? = some p.2 := hl p (List.mem_cons_self p l)
    have hp1 : p.1 < sorted.length := by
      obtain ⟨h, _⟩ := List.getElem?_eq_some.mp hp
      exact h
    obtain ⟨b0, hb0⟩ : ∃ b0, sorted[acc]? = some b0 :=
      ⟨_, List.getElem?_eq_getElem hacc⟩
    have hstep : closestStep sorted t acc p
        = if |p.2.timestamp - t| < |b0.timestamp - t| then p.1 else acc := by
      unfold closestStep
      rw [hb0]
    rw [List.foldl_cons]
    by_cases hc : |p.2.timestamp - t| < |b0.timestamp - t|
    · rw [hstep, if_pos hc]
      have hrec := ih p.1 hp1 fun p' hp' => hl p' (List.mem_cons_of_mem _ hp')
      refine ⟨hrec.1, fun q b hq hb => ?_⟩
      have h2 := hrec.2 q p.2 hq hp
      have hbb0 : b = b0 := by
        rw [hb0] at hb
        exact (Option.some_injective _ hb).symm
      subst hbb0
      refine ⟨le_of_lt (lt_of_le_of_lt h2.1 hc), fun p' hp' => ?_⟩
      rcases List.mem_cons.mp hp' with h | h
      · subst h
        exact h2.1
      · exact h2.2 p' h
    · rw [hstep, if_neg hc]
      have hrec := ih acc hacc fun p' hp' => hl p' (List.mem_cons_of_mem _ hp')
      refine ⟨hrec.1, fun q b hq hb => ?_⟩
      have h2 := hrec.2 q b hq hb
      refine ⟨h2.1, fun p' hp' => ?_⟩
      rcases List.mem_cons.mp hp' with h | h
      · subst h
        have hbb0 : b = b0 := by
          rw [hb0] at hb
          exact (Option.some_injective _ hb).symm
        calc |q.timestamp - t| ≤ |b.timestamp - t| := h2.1
          _ = |b0.timestamp - t| := by rw [hbb0]
          _ ≤ |p'.2.timestamp - t| := not_lt.mp hc
      · exact h2.2 p' h

/-- `closestShotIndex` returns a valid index whose screenshot minimises
the absolute time difference over the whole sorted list. -/
theorem closestShotIndex_spec (sorted : List ScreencastFrameEvent) (t : Int)
    (hne : sorted ≠ []) :
    closestShotIndex sorted t < sorted.length ∧
    ∀ q, sorted[(closestShotIndex sorted t)]? = some q →
      ∀ f ∈ sorted, |q.timestamp - t| ≤ |f.timestamp - t| := by
  have h0 : 0 < sorted.length := List.length_pos.mpr hne
  have hl : ∀ p ∈ sorted.enum, sorted[p.1]? = some p.2 := by
    intro p hp
    exact List.mem_enum_iff_getElem?.mp hp
  have hspec := closestStep_fold_spec sorted t sorted.enum 0 h0 hl
  refine ⟨hspec.1, fun q hq f hf => ?_⟩
  obtain ⟨b0, hb0⟩ : ∃ b0, sorted[(0 : Nat)]? = some b0 :=
    ⟨_, List.getElem?_eq_getElem h0⟩
  have h2 := hspec.2 q b0 hq hb0
  obtain ⟨n, hn⟩ := List.mem_iff_getElem?.mp hf
  exact h2.2 (n, f) (List.mem_enum_iff_getElem?.mpr hn)

/-- **C7.** For every query, the `before` and `after` context lists of
the nearest-screenshot search are clipped at the bounds of the sorted
screenshot list: each holds at most the requested count and only
indexes inside the array. When the query timestamp equals some
screenshot's timestamp, the returned target has exactly that timestamp
(zero time delta). -/
theorem getScreenshotsAround_clipped_and_exact
    (screenshots : List ScreencastFrameEvent) (timestamp : Int)
    (contextCount : Nat) (traceDir : String) :
    (getScreenshotsAround screenshots timestamp contextCount traceDir).before.length
      ≤ contextCount ∧
    (getScreenshotsAround screenshots timestamp contextCount traceDir).after.length
      ≤ contextCount ∧
    (∀ x ∈ (getScreenshotsAround screenshots timestamp contextCount traceDir).before,
      x.index < (sortShots screenshots).length) ∧
    (∀ x ∈ (getScreenshotsAround screenshots timestamp contextCount traceDir).after,
      x.index < (sortShots screenshots).length) ∧
    ((∃ f ∈ screenshots, f.timestamp = timestamp) →
      (getScreenshotsAround screenshots timestamp contextCount traceDir).timestamp
        = timestamp) := by
  by_cases hemp : (sortShots screenshots).isEmpty
  · have hnil : sortShots screenshots = [] := List.isEmpty_iff.mp hemp
    have hsnil : screenshots = [] := by
      have := List.mergeSort_perm screenshots
        (fun a b => decide (a.timestamp ≤ b.timestamp))
      rw [sortShots] at hnil
      exact List.Perm.eq_nil ((hnil ▸ this).symm)
    have hr : getScreenshotsAround screenshots timestamp contextCount traceDir
        = emptyScreenshotResult := by
      unfold getScreenshotsAround
      rw [if_pos hemp]
    rw [hr]
    refine ⟨by simp [emptyScreenshotResult], by simp [emptyScreenshotResult],
      by simp [emptyScreenshotResult], by simp [emptyScreenshotResult], ?_⟩
    rintro ⟨f, hf, -⟩
    exact absurd hf (by rw [hsnil]; exact List.not_mem_nil f)
  · have hne : sortShots screenshots ≠ [] := by
      intro h
      rw [h] at hemp
      exact hemp rfl
    obtain ⟨hlt, hmin⟩ := closestShotIndex_spec (sortShots screenshots) timestamp hne
    obtain ⟨target, htarget⟩ :
        ∃ tg, (sortShots screenshots)[(closestShotIndex (sortShots screenshots)
          timestamp)]? = some tg :=
      ⟨_, List.getElem?_eq_getElem hlt⟩
    have hr : getScreenshotsAround screenshots timestamp contextCount traceDir
        = { target := getScreenshotPath traceDir target.sha1
            targetIndex := (closestShotIndex (sortShots screenshots) timestamp : Int)
            timestamp := target.timestamp
            before := (((sortShots screenshots).drop
                (closestShotIndex (sortShots screenshots) timestamp - contextCount)).take
                  (closestShotIndex (sortShots screenshots) timestamp -
                    (closestShotIndex (sortShots screenshots) timestamp -
                      contextCount))).enum.map fun p =>
              { index := (closestShotIndex (sortShots screenshots) timestamp -
                  contextCount) + p.1
                path := getScreenshotPath traceDir p.2.sha1
                timestamp := p.2.timestamp }
            after := (((sortShots screenshots).drop
                (closestShotIndex (sortShots screenshots) timestamp + 1)).take
                  contextCount).enum.map fun p =>
              { index := closestShotIndex (sortShots screenshots) timestamp + 1 + p.1
                path := getScreenshotPath traceDir p.2.sha1
                timestamp := p.2.timestamp } } := by
      unfold getScreenshotsAround
      rw [if_neg (by simp [hemp])]
      dsimp only
      rw [htarget]
    rw [hr]
    refine ⟨?_, ?_, ?_, ?_, ?_⟩
    · simp only [List.length_map, List.enum_length, List.length_take]
      exact le_trans (min_le_left _ _) (by omega)
    · simp only [List.length_map, List.enum_length, List.length_take]
      exact min_le_left _ _
    · intro x hx
      obtain ⟨p, hp, hpx⟩ := List.mem_map.mp hx
      have hp1 : p.1 < (((sortShots screenshots).drop
          (closestShotIndex (sortShots screenshots) timestamp - contextCount)).take
            (closestShotIndex (sortShots screenshots) timestamp -
              (closestShotIndex (sortShots screenshots) timestamp -
                contextCount))).length := by
        obtain ⟨h, _⟩ := List.getElem?_eq_some.mp (List.mem_enum_iff_getElem?.mp hp)
        exact h
      rw [List.length_take, List.length_drop] at hp1
      have hmin2 := lt_min_iff.mp hp1
      have hxi : x.index = (closestShotIndex (sortShots screenshots) timestamp -
          contextCount) + p.1 := by
        rw [← hpx]
      rw [hxi]
      omega
    · intro x hx
      obtain ⟨p, hp, hpx⟩ := List.mem_map.mp hx
      have hp1 : p.1 < (((sortShots screenshots).drop
          (closestShotIndex (sortShots screenshots) timestamp + 1)).take
            contextCount).length := by
        obtain ⟨h, _⟩ := List.getElem?_eq_some.mp (List.mem_enum_iff_getElem?.mp hp)
        exact h
      rw [List.length_take, List.length_drop] at hp1
      have hmin2 := lt_min_iff.mp hp1
      have hxi : x.index = closestShotIndex (sortShots screenshots) timestamp + 1 + p.1 := by
        rw [← hpx]
      rw [hxi]
      omega
    · rintro ⟨f, hf, hft⟩
      have hfs : f ∈ sortShots screenshots := by
        rw [sortShots]
        exact List.mem_mergeSort.mpr hf
      have hle := hmin target htarget f hfs
      rw [hft] at hle
      simp only [sub_self, abs_zero] at hle
      have hz : |target.timestamp - timestamp| = 0 :=
        le_antisymm hle (abs_nonneg _)
      rw [abs_eq_zero, sub_eq_zero] at hz
      exact hz

/-- Witness for C7: scenario E, five sorted screenshots queried at the
timestamp of the middle one with context 1 — at most one screenshot on
each side and an exact-timestamp target. -/
theorem getScreenshotsAround_clipped_and_exact_witness :
    (getScreenshotsAround cexShots 30 1 "trace").before.length ≤ 1 ∧
    (getScreenshotsAround cexShots 30 1 "trace").after.length ≤ 1 ∧
    (getScreenshotsAround cexShots 30 1 "trace").timestamp = 30 :=
  ⟨(getScreenshotsAround_clipped_and_exact cexShots 30 1 "trace").1,
   (getScreenshotsAround_clipped_and_exact cexShots 30 1 "trace").2.1,
   (getScreenshotsAround_clipped_and_exact cexShots 30 1 "trace").2.2.2.2 (by decide)⟩

/-- The deduplicating fold preserves the pairwise 1000 ms separation
invariant of its accumulator. -/
theorem dedupStep_foldl_pairwise :
    ∀ (l acc : List DiagnosticIssue),
      acc.Pairwise (fun a b => a.category = b.category →
        1000 ≤ |a.timestamp - b.timestamp|) →
      (l.foldl dedupStep acc).Pairwise (fun a b => a.category = b.category →
        1000 ≤ |a.timestamp - b.timestamp|) := by
  intro l
  induction l with
  | nil => exact fun acc h => h
  | cons i l ih =>
    intro acc h
    rw [List.foldl_cons]
    unfold dedupStep
    split
    · exact ih acc h
    · rename_i hfalse
      apply ih
      rw [List.pairwise_append]
      refine ⟨h, List.pairwise_singleton _ _, ?_⟩
      intro a ha b hb
      rw [List.mem_singleton] at hb
      subst hb
      intro hcat
      by_contra hlt
      apply hfalse
      rw [List.any_eq_true]
      refine ⟨a, ha, ?_⟩
      simp only [Bool.and_eq_true, beq_iff_eq, decide_eq_true_eq]
      exact ⟨hcat, not_le.mp hlt⟩

/-- The deduplicating fold commutes with restriction to one category:
other-category issues neither trigger nor suffer the 1000 ms check
against category-`c` issues. -/
theorem dedup_foldl_filter_comm (c : String) :
    ∀ (l acc : List DiagnosticIssue),
      (l.foldl dedupStep acc).filter (fun i => i.category == c)
        = (l.filter fun i => i.category == c).foldl dedupStep
            (acc.filter fun i => i.category == c) := by
  intro l
  induction l with
  | nil => intro acc; simp
  | cons i l ih =>
    intro acc
    rw [List.foldl_cons]
    by_cases hcat : i.category = c
    · rw [List.filter_cons_of_pos (by simp [hcat]), List.foldl_cons]
      have hany : (acc.any fun existing =>
            existing.category == i.category &&
              decide (|existing.timestamp - i.timestamp| < 1000))
          = ((acc.filter fun x => x.category == c).any fun existing =>
            existing.category == i.category &&
              decide (|existing.timestamp - i.timestamp| < 1000)) := by
        rw [List.any_filter]
        congr 1
        funext a
        by_cases hac : a.category = i.category
        · simp [hac, hcat]
        · simp [hac]
      have hstep : (dedupStep acc i).filter (fun x => x.category == c)
          = dedupStep (acc.filter fun x => x.category == c) i := by
        unfold dedupStep
        rw [← hany]
        split
        · rfl
        · rw [List.filter_append]
          simp [hcat]
      rw [← hstep, ih]
    · rw [List.filter_cons_of_neg (by simp [hcat])]
      have hstep : (dedupStep acc i).filter (fun x => x.category == c)
          = acc.filter fun x => x.category == c := by
        unfold dedupStep
        split
        · rfl
        · rw [List.filter_append]
          simp [hcat]
      rw [ih, hstep]

/-- Once a category-`c` issue is kept, any further issues within
1000 ms of it (and of its category) are all dropped. -/
theorem dedup_foldl_cluster (a : DiagnosticIssue) :
    ∀ m : List DiagnosticIssue,
      (∀ x ∈ m, a.category = x.category ∧ |a.timestamp - x.timestamp| < 1000) →
      m.foldl dedupStep [a] = [a] := by
  intro m
  induction m with
  | nil => exact fun _ => rfl
  | cons x m ih =>
    intro h
    have hx := h x (List.mem_cons_self x m)
    rw [List.foldl_cons]
    have hstep : dedupStep [a] x = [a] := by
      unfold dedupStep
      rw [if_pos]
      rw [List.any_eq_true]
      refine ⟨a, List.mem_singleton_self a, ?_⟩
      simp only [Bool.and_eq_true, beq_iff_eq, decide_eq_true_eq]
      exact hx
    rw [hstep]
    exact ih fun y hy => h y (List.mem_cons_of_mem _ hy)

/-- The sorted issue list is pairwise ascending in timestamps. -/
theorem sortIssues_pairwise (issues : List DiagnosticIssue) :
    (sortIssues issues).Pairwise fun a b => a.timestamp ≤ b.timestamp := by
  have h := @List.sorted_mergeSort DiagnosticIssue
    (fun a b => decide (a.timestamp ≤ b.timestamp))
    (fun a b c hab hbc => by
      simp only [decide_eq_true_eq] at *
      omega)
    (fun a b => by
      simp only [Bool.or_eq_true, decide_eq_true_eq]
      omega)
    issues
  exact h.imp fun hab => by simpa using hab

/-- **C3.** In the deduplicated issue set, any two issues of the same
category are at least 1000 ms apart; and when all category-`c` issues
of a report lie within 1000 ms of one another (a collapsing group), the
single retained category-`c` issue is the first of the sorted group —
the earliest of the group. -/
theorem diagnose_dedup_invariant (issues : List DiagnosticIssue) (c : String) :
    (dedupIssues (sortIssues issues)).Pairwise
      (fun a b => a.category = b.category → 1000 ≤ |a.timestamp - b.timestamp|) ∧
    ((∀ x ∈ issues, x.category = c → ∀ y ∈ issues, y.category = c →
        |x.timestamp - y.timestamp| < 1000) →
      ∀ hd tl, (sortIssues issues).filter (fun i => i.category == c) = hd :: tl →
        (dedupIssues (sortIssues issues)).filter (fun i => i.category == c) = [hd] ∧
        ∀ x ∈ issues, x.category = c → hd.timestamp ≤ x.timestamp) := by
  constructor
  · exact dedupStep_foldl_pairwise _ [] List.Pairwise.nil
  · intro hcluster hd tl hfilter
    have hmemsort : ∀ x : DiagnosticIssue, x ∈ sortIssues issues ↔ x ∈ issues :=
      fun x => List.mem_mergeSort
    have hhd : hd ∈ sortIssues issues ∧ hd.category = c := by
      have hm : hd ∈ (sortIssues issues).filter fun i => i.category == c := by
        rw [hfilter]
        exact List.mem_cons_self hd tl
      have h2 := List.mem_filter.mp hm
      exact ⟨h2.1, by simpa using h2.2⟩
    constructor
    · rw [dedupIssues, dedup_foldl_filter_comm c, hfilter]
      simp only [List.filter_nil]
      rw [List.foldl_cons]
      have h1 : dedupStep [] hd = [hd] := by
        unfold dedupStep
        simp
      rw [h1]
      apply dedup_foldl_cluster
      intro x hx
      have hxf : x ∈ (sortIssues issues).filter fun i => i.category == c := by
        rw [hfilter]
        exact List.mem_cons_of_mem _ hx
      have h2 := List.mem_filter.mp hxf
      have hxc : x.category = c := by simpa using h2.2
      exact ⟨by rw [hhd.2, hxc],
        hcluster hd ((hmemsort hd).mp hhd.1) hhd.2 x ((hmemsort x).mp h2.1) hxc⟩
    · intro x hxi hxc
      have hxs : x ∈ (sortIssues issues).filter fun i => i.category == c :=
        List.mem_filter.mpr ⟨(hmemsort x).mpr hxi, by simpa using hxc⟩
      rw [hfilter] at hxs
      rcases List.mem_cons.mp hxs with h | h
      · rw [h]
      · have hsf : ((sortIssues issues).filter fun i => i.category == c).Pairwise
            (fun a b => a.timestamp ≤ b.timestamp) :=
          (sortIssues_pairwise issues).sublist (List.filter_sublist _)
        rw [hfilter] at hsf
        exact (List.pairwise_cons.mp hsf).1 x h

/-- Witness for C3: two `"Timeout"` issues 500 ms apart collapse to the
earlier one. -/
theorem diagnose_dedup_invariant_witness :
    (dedupIssues (sortIssues [mkCexIssue "Timeout" 0, mkCexIssue "Timeout" 500])).filter
        (fun i => i.category == "Timeout") = [mkCexIssue "Timeout" 0] ∧
    (mkCexIssue "Timeout" 0).timestamp ≤ (mkCexIssue "Timeout" 500).timestamp := by
  have hsort : sortIssues [mkCexIssue "Timeout" 0, mkCexIssue "Timeout" 500]
      = [mkCexIssue "Timeout" 0, mkCexIssue "Timeout" 500] :=
    List.mergeSort_of_sorted (by decide)
  have h := (diagnose_dedup_invariant
    [mkCexIssue "Timeout" 0, mkCexIssue "Timeout" 500] "Timeout").2
    (by decide) (mkCexIssue "Timeout" 0) [mkCexIssue "Timeout" 500]
    (by rw [hsort]; decide)
  exact ⟨h.1, h.2 (mkCexIssue "Timeout" 500) (by decide) (by decide)⟩

/-- The deduplicating fold only ever appends: its result is the
accumulator followed by a sublist of the input. -/
theorem dedup_foldl_sublist :
    ∀ (l acc : List DiagnosticIssue),
      ∃ t, l.foldl dedupStep acc = acc ++ t ∧ t.Sublist l := by
  intro l
  induction l with
  | nil => exact fun acc => ⟨[], by simp, List.nil_sublist _⟩
  | cons i l ih =>
    intro acc
    rw [List.foldl_cons]
    by_cases hc : (acc.any fun existing =>
        existing.category == i.category &&
          decide (|existing.timestamp - i.timestamp| < 1000)) = true
    · have hstep : dedupStep acc i = acc := by
        unfold dedupStep
        rw [if_pos hc]
      rw [hstep]
      obtain ⟨t, ht, hs⟩ := ih acc
      exact ⟨t, ht, List.Sublist.cons i hs⟩
    · have hstep : dedupStep acc i = acc ++ [i] := by
        unfold dedupStep
        rw [if_neg hc]
      rw [hstep]
      obtain ⟨t, ht, hs⟩ := ih (acc ++ [i])
      refine ⟨i :: t, ?_, List.Sublist.cons₂ i hs⟩
      rw [ht, List.append_assoc]
      rfl

/-- Evaluating the `byCategory` accumulation at one category counts the
issues of that category beyond the base map's count. -/
theorem byCategoryOf_foldl (c : String) :
    ∀ (l : List DiagnosticIssue) (m : String → Nat),
      (l.foldl (fun m issue => fun c => if c = issue.category then m c + 1 else m c) m) c
        = m c + (l.filter fun i => i.category == c).length := by
  intro l
  induction l with
  | nil => intro m; simp
  | cons i l ih =>
    intro m
    rw [List.foldl_cons, ih]
    by_cases hc : i.category = c
    · rw [List.filter_cons_of_pos (by simp [hc]), if_pos hc.symm]
      simp only [List.length_cons]
      omega
    · rw [List.filter_cons_of_neg (by simp [hc]), if_neg fun h => hc h.symm]

/-- `byCategoryOf` counts the issues of each category. -/
theorem byCategoryOf_eq (l : List DiagnosticIssue) (c : String) :
    byCategoryOf l c = (l.filter fun i => i.category == c).length := by
  unfold byCategoryOf
  rw [byCategoryOf_foldl]
  simp

/-- **C9.** The emitted issues list holds at most 10 issues; it is the
projection of the first 10 active (deduplicated, non-recovered unless
verbose) issues, in ascending timestamp order, and every emitted issue
is no later than every capped-off one — so they are the earliest 10.
The per-category counts still range over all deduplicated non-recovered
issues, not just the capped list. -/
theorem getDiagnoseResults_top10_and_counts (issues : List DiagnosticIssue)
    (verbose : Bool) :
    (getDiagnoseResults issues verbose).issues.length ≤ 10 ∧
    (getDiagnoseResults issues verbose).issues
      = ((activeIssuesOf issues verbose).take 10).map projectIssue ∧
    List.Sorted (· ≤ ·)
      ((getDiagnoseResults issues verbose).issues.map fun i => i.timestamp) ∧
    (∀ a ∈ (activeIssuesOf issues verbose).take 10,
      ∀ b ∈ (activeIssuesOf issues verbose).drop 10, a.timestamp ≤ b.timestamp) ∧
    (∀ cat, (getDiagnoseResults issues verbose).byCategory cat
      = (((dedupIssues (sortIssues issues)).filter fun i => !i.recovered).filter
          (fun i => i.category == cat)).length) := by
  have hissues : (getDiagnoseResults issues verbose).issues
      = ((activeIssuesOf issues verbose).take 10).map projectIssue := rfl
  have hbycat : (getDiagnoseResults issues verbose).byCategory
      = byCategoryOf ((dedupIssues (sortIssues issues)).filter fun i => !i.recovered) :=
    rfl
  have hsub : (activeIssuesOf issues verbose).Sublist (dedupIssues (sortIssues issues)) := by
    unfold activeIssuesOf
    cases verbose
    · simp only [Bool.false_eq_true, if_false]
      exact List.filter_sublist _
    · simp only [if_true]
      exact List.Sublist.refl _
  have hdedup_sub : (dedupIssues (sortIssues issues)).Sublist (sortIssues issues) := by
    obtain ⟨t, ht, hs⟩ := dedup_foldl_sublist (sortIssues issues) []
    rw [dedupIssues, ht]
    simpa using hs
  have hpair : (activeIssuesOf issues verbose).Pairwise
      (fun a b => a.timestamp ≤ b.timestamp) :=
    (sortIssues_pairwise issues).sublist (hsub.trans hdedup_sub)
  refine ⟨?_, hissues, ?_, ?_, ?_⟩
  · rw [hissues, List.length_map, List.length_take]
    exact min_le_left _ _
  · rw [hissues, List.map_map]
    have hcomp : ((fun i : IssueOut => i.timestamp) ∘ projectIssue)
        = fun i : DiagnosticIssue => i.timestamp := rfl
    rw [hcomp]
    exact List.pairwise_map.mpr (hpair.sublist (List.take_sublist 10 _))
  · intro a ha b hb
    have hsplit := List.take_append_drop 10 (activeIssuesOf issues verbose)
    have hp2 : ((activeIssuesOf issues verbose).take 10
        ++ (activeIssuesOf issues verbose).drop 10).Pairwise
          (fun a b => a.timestamp ≤ b.timestamp) := by
      rw [hsplit]
      exact hpair
    exact (List.pairwise_append.mp hp2).2.2 a ha b hb
  · intro cat
    rw [hbycat, byCategoryOf_eq]
